import Mathlib

/-!
# Verification of `sessionup-pgstore` (PostgreSQL session store)

Shallow embedding of the `pgstore` package (`postgres.go`): the `PgStore`
session store backed by a PostgreSQL table.  The database is modelled as a
list of rows; each SQL statement the store issues is modelled by its effect
on that list, using the database's current time as an explicit parameter
where the statement mentions `CURRENT_TIMESTAMP`.  The Go error values that
flow through the store are modelled by `DBError`; failures of the underlying
driver are injected as explicit inputs so the store's error-handling paths
can be stated.
-/

set_option autoImplicit false

namespace PgStore

/-- Errors produced by the database layer (`database/sql` and the `pq`
driver), as the store's code distinguishes them:
`errNoRows` is `sql.ErrNoRows`, `pqError c` is a `*pq.Error` whose
`Constraint` field is `c`, and `generic msg` is any other error. -/
inductive DBError where
  | errNoRows
  | pqError (constraint : String)
  | generic (msg : String)
  deriving DecidableEq, Repr

/-- Errors a store operation returns to its caller: either
`sessionup.ErrDuplicateID` or an underlying database error passed through
unchanged. -/
inductive StoreError where
  | duplicateID
  | db (e : DBError)
  deriving DecidableEq, Repr

/-- A row of the sessions table, per the `table` schema constant:
`created_at TIMESTAMPTZ NOT NULL, expires_at TIMESTAMPTZ NOT NULL,
id TEXT PRIMARY KEY, user_key TEXT NOT NULL, ip TEXT, agent_os TEXT,
agent_browser TEXT`.  Nullable columns are `Option String` (`none` = SQL
NULL); timestamps are integers. -/
structure Row where
  createdAt : Int
  expiresAt : Int
  id : String
  userKey : String
  ip : Option String
  agentOS : Option String
  agentBrowser : Option String
  deriving DecidableEq, Repr

/-- A `sessionup.Session` domain value as the store reads and writes it.
`ip` models the `net.IP` field: `none` is a nil IP, `some t` an IP whose
textual form (`IP.String()`) is `t`. -/
structure Session where
  createdAt : Int
  expiresAt : Int
  id : String
  userKey : String
  ip : Option String
  agentOS : String
  agentBrowser : String
  deriving DecidableEq, Repr

/-- The zero value `sessionup.Session{}`: zero times, empty strings, nil IP. -/
def Session.zero : Session :=
  { createdAt := 0, expiresAt := 0, id := "", userKey := "",
    ip := none, agentOS := "", agentBrowser := "" }

instance : Inhabited Session := ⟨Session.zero⟩

/-- `net.IP.String()`: a nil IP renders as the text `"<nil>"`, a non-nil IP
as its textual form. -/
def ipString : Option String → String
  | none => "<nil>"
  | some t => t

/-- Modelled from the spec: `net.ParseIP` (standard library, not part of
this repository) returns a non-nil IP exactly for a valid textual IP
address; here restricted to IPv4 dotted-quad form, which suffices for every
concrete input used below.  Returns `none` for anything else, as `ParseIP`
returns nil. -/
def parseIP (s : String) : Option String :=
  let parts := s.splitOn "."
  if parts.length = 4 ∧ parts.all fun p =>
      p.length > 0 ∧ p.all Char.isDigit ∧ p.toNat! ≤ 255 then
    some s
  else
    none

/-- `setNullString` (postgres.go): builds an `sql.NullString`, valid only
when the input is neither `""` nor `"<nil>"`.  `none` models an invalid
(NULL) `NullString`. -/
def setNullString (s : String) : Option String :=
  if s ≠ "" ∧ s ≠ "<nil>" then some s else none

/-- The row `Create` binds: positional values
`s.CreatedAt, s.ExpiresAt, s.ID, s.UserKey, setNullString(s.IP.String()),
setNullString(s.Agent.OS), setNullString(s.Agent.Browser)`. -/
def encodeRow (s : Session) : Row :=
  { createdAt := s.createdAt, expiresAt := s.expiresAt, id := s.id,
    userKey := s.userKey,
    ip := setNullString (ipString s.ip),
    agentOS := setNullString s.agentOS,
    agentBrowser := setNullString s.agentBrowser }

/-- Decoding a scanned row into a `sessionup.Session` (shared by
`FetchByID` and `FetchByUserKey`): the IP column is parsed only when
non-NULL (`if ip.Valid { s.IP = net.ParseIP(ip.String) }`), while the agent
columns take `NullString.String`, which is `""` for NULL. -/
def decodeRow (r : Row) : Session :=
  { createdAt := r.createdAt, expiresAt := r.expiresAt, id := r.id,
    userKey := r.userKey,
    ip := match r.ip with
      | none => none
      | some t => parseIP t,
    agentOS := r.agentOS.getD "",
    agentBrowser := r.agentBrowser.getD "" }

/-! ## Schema initialization (`table` constant and `New`) -/

/-- A column of the schema DDL. -/
structure Column where
  name : String
  sqlType : String
  notNull : Bool
  primaryKey : Bool
  deriving DecidableEq, Repr

/-- A DDL statement the store could execute at construction. -/
inductive DDL where
  | createTableIfNotExists (cols : List Column)
  | createIndex (col : String)
  deriving DecidableEq, Repr

/-- Whether a DDL statement is an index creation. -/
def DDL.isCreateIndex : DDL → Bool
  | .createIndex _ => true
  | _ => false

/-- The columns of the `table` schema constant, in source order. -/
def tableColumns : List Column :=
  [ ⟨"created_at", "TIMESTAMPTZ", true, false⟩,
    ⟨"expires_at", "TIMESTAMPTZ", true, false⟩,
    ⟨"id", "TEXT", false, true⟩,
    ⟨"user_key", "TEXT", true, false⟩,
    ⟨"ip", "TEXT", false, false⟩,
    ⟨"agent_os", "TEXT", false, false⟩,
    ⟨"agent_browser", "TEXT", false, false⟩ ]

/-- The DDL `New` executes: the `table` constant is a single
`CREATE TABLE IF NOT EXISTS` statement and nothing else. -/
def newStoreDDL : List DDL := [.createTableIfNotExists tableColumns]

/-- The store's internal state relevant to the sweeper lifecycle:
`stopChan` is `none` while the `stopChan` field is nil (no cleanup
goroutine started). -/
structure StoreState where
  tName : String
  stopChan : Option Unit
  deriving DecidableEq, Repr

/-- `New(db, tName, d)`: executes the schema DDL; on failure returns the
error and no store; otherwise returns a store whose cleanup goroutine is
started only when `d > 0` (which is when `startCleanup` assigns
`stopChan`). -/
def NewStore (tName : String) (d : Int) (ddlErr : Option DBError) :
    Except DBError StoreState :=
  match ddlErr with
  | some e => .error e
  | none => .ok { tName := tName, stopChan := if d > 0 then some () else none }

/-! ## Create -/

/-- The database's response to the `INSERT` that `Create` issues, under the
`id TEXT PRIMARY KEY` constraint: if a row with the same id exists, the
insert fails with a `*pq.Error` whose constraint is `{table}_pkey` and the
table is unchanged; otherwise the row is appended. -/
def execInsert (tName : String) (db : List Row) (r : Row) :
    Option DBError × List Row :=
  if db.any fun r0 => r0.id == r.id then
    (some (.pqError (tName ++ "_pkey")), db)
  else
    (none, db ++ [r])

/-- `Create`'s handling of the exec error (postgres.go lines checking
`err.(*pq.Error)` and `perr.Constraint == fmt.Sprintf("%s_pkey", p.tName)`):
a pq error with the matching constraint becomes `sessionup.ErrDuplicateID`;
any other error is returned unchanged. -/
def createClassify (tName : String) (execErr : Option DBError) :
    Option StoreError :=
  match execErr with
  | some (.pqError c) =>
      if c = tName ++ "_pkey" then some .duplicateID
      else some (.db (.pqError c))
  | some e => some (.db e)
  | none => none

/-- `Create` against the modelled database: encode the session, run the
insert, classify the error. -/
def createOp (tName : String) (db : List Row) (s : Session) :
    Option StoreError × List Row :=
  let (e, db') := execInsert tName db (encodeRow s)
  (createClassify tName e, db')

/-! ## FetchByID -/

/-- The `SELECT ... WHERE id = $1 AND expires_at > CURRENT_TIMESTAMP`
query under `QueryRow` semantics: the first matching active row, or
`sql.ErrNoRows` when none matches. -/
def fetchByIDQuery (db : List Row) (now : Int) (id : String) :
    Except DBError Row :=
  match db.find? fun r => r.id == id && decide (now < r.expiresAt) with
  | some r => .ok r
  | none => .error .errNoRows

/-- `FetchByID`'s handling of the scan result: `sql.ErrNoRows` becomes
`(zero Session, false, nil)`, any other error `(zero Session, false, err)`,
and a row is decoded into `(session, true, nil)`. -/
def fetchByIDDecode (res : Except DBError Row) :
    Session × Bool × Option DBError :=
  match res with
  | .error .errNoRows => (Session.zero, false, none)
  | .error e => (Session.zero, false, some e)
  | .ok r => (decodeRow r, true, none)

/-- `FetchByID` composed with the query semantics. -/
def fetchByID (db : List Row) (now : Int) (id : String) :
    Session × Bool × Option DBError :=
  fetchByIDDecode (fetchByIDQuery db now id)

/-! ## FetchByUserKey -/

/-- The `SELECT * FROM %s WHERE user_key = $1` query: every row whose
`user_key` matches, in table order, with no condition on `expires_at`. -/
def fetchByUserKeyQuery (db : List Row) (key : String) : List Row :=
  db.filter fun r => r.userKey == key

/-- Draining the result cursor: scan each yielded element in order; the
first scan failure aborts the loop (`rr.Close(); return nil, err`), so no
partial sequence survives an error. -/
def drainRows : List (Except DBError Row) → Except DBError (List Session)
  | [] => .ok []
  | .error e :: _ => .error e
  | .ok r :: rest =>
      match drainRows rest with
      | .error e => .error e
      | .ok ss => .ok (decodeRow r :: ss)

/-- A result cursor: the elements `rr.Next()`/`rr.Scan` yield (each either
a row or a scan failure), together with the post-iteration error that
`rr.Err()` reports. -/
structure Cursor where
  elems : List (Except DBError Row)
  iterErr : Option DBError

/-- `FetchByUserKey`'s handling of an open cursor: drain every row, then
check `rr.Err()`; either failure is propagated with no partial result. -/
def fetchByUserKeyDecode (c : Cursor) : Except DBError (List Session) :=
  match drainRows c.elems with
  | .error e => .error e
  | .ok ss =>
      match c.iterErr with
      | some e => .error e
      | none => .ok ss

/-- `FetchByUserKey`'s handling of the query result: `sql.ErrNoRows` is
mapped to `(nil, nil)` — an empty result and no error — any other query
error is returned as is, and an open cursor is drained. -/
def fetchByUserKeyGo (res : Except DBError Cursor) :
    Except DBError (List Session) :=
  match res with
  | .error .errNoRows => .ok []
  | .error e => .error e
  | .ok c => fetchByUserKeyDecode c

/-- `FetchByUserKey` composed with the query semantics (a successful query
yields every matching row and no iteration error). -/
def fetchByUserKey (db : List Row) (key : String) :
    Except DBError (List Session) :=
  fetchByUserKeyGo (.ok ⟨(fetchByUserKeyQuery db key).map .ok, none⟩)

/-! ## Deletions and the sweeper -/

/-- `DeleteByUserKey`: with a non-empty exception list the statement is
`DELETE ... WHERE user_key = $1 AND id != ALL ($2)`, deleting the matching
rows whose id differs from every exception; with no exceptions it is
`DELETE ... WHERE user_key = $1`.  The function returns the surviving
rows. -/
def deleteByUserKey (db : List Row) (key : String) (expID : List String) :
    List Row :=
  if expID.length > 0 then
    db.filter fun r => !(r.userKey == key && !expID.contains r.id)
  else
    db.filter fun r => !(r.userKey == key)

/-- `deleteExpired`: `DELETE FROM %s WHERE expires_at < CURRENT_TIMESTAMP`,
keeping exactly the rows not strictly expired. -/
def deleteExpired (db : List Row) (now : Int) : List Row :=
  db.filter fun r => !(decide (r.expiresAt < now))

/-- One tick of the `startCleanup` loop: run `deleteExpired`; on failure
send the error on `errChan` (modelled as the list of channel sends) and
leave the table as the failed statement left it; nothing is ever returned
to a caller.  A failureless tick sends nothing. -/
def sweepTick (db : List Row) (now : Int) (execErr : Option DBError) :
    List Row × List DBError :=
  match execErr with
  | some e => (db, [e])
  | none => (deleteExpired db now, [])

/-- A run of the sweeper over a sequence of ticks, each with the database
time at that tick and the error (if any) its delete statement produced;
accumulates every channel send in order. -/
def sweepRun (db : List Row) : List (Int × Option DBError) →
    List Row × List DBError
  | [] => (db, [])
  | (now, e) :: rest =>
      let (db', sends) := sweepTick db now e
      let (db'', sends') := sweepRun db' rest
      (db'', sends ++ sends')

/-- `StopCleanup`: guarded by `if p.stopChan != nil`; when the stop channel
was never assigned the call performs no send and changes nothing.  The
result is the store state afterwards and the list of stop-channel sends
(a send on an unbuffered channel is what could block). -/
def stopCleanup (p : StoreState) : StoreState × List Unit :=
  match p.stopChan with
  | none => (p, [])
  | some _ => (p, [()])

/-! ## Concrete fixtures for witnesses -/

/-- A session with every optional field absent. -/
def emptySession : Session :=
  { createdAt := 1, expiresAt := 10, id := "id1", userKey := "key",
    ip := none, agentOS := "", agentBrowser := "" }

/-- A fully populated session. -/
def fullSession : Session :=
  { createdAt := 1, expiresAt := 10, id := "id1", userKey := "key",
    ip := some "127.0.0.1", agentOS := "GNU/Linux", agentBrowser := "Firefox" }

/-! ## Theorems -/

/-- C1: For every Session whose optional fields are absent (nil IP and
empty agent strings), `Create` stores all three optional columns as SQL
NULL — never as empty-string values — and a subsequent `FetchByID` on that
Session's id (while the row is active) decodes each NULL column back to the
empty value (nil IP, empty strings), returning the original Session: the
round-trip preserves the "absent" state. -/
theorem create_fetch_roundtrip_empty_optionals (s : Session) (now : Int)
    (hip : s.ip = none) (hos : s.agentOS = "") (hbr : s.agentBrowser = "")
    (hact : now < s.expiresAt) :
    (encodeRow s).ip = none ∧ (encodeRow s).agentOS = none ∧
      (encodeRow s).agentBrowser = none ∧
      fetchByID [encodeRow s] now s.id = (s, true, none) := by
  obtain ⟨cA, eA, i, u, ip, os, br⟩ := s
  simp only at hip hos hbr hact
  subst hip hos hbr
  refine ⟨?_, ?_, ?_, ?_⟩ <;>
    simp [encodeRow, setNullString, ipString, fetchByID,
      fetchByIDQuery, fetchByIDDecode, decodeRow, List.find?, hact]

/-- Witness for C1 at a concrete session. -/
theorem create_fetch_roundtrip_empty_optionals_witness :
    (encodeRow emptySession).ip = none ∧
      (encodeRow emptySession).agentOS = none ∧
      (encodeRow emptySession).agentBrowser = none ∧
      fetchByID [encodeRow emptySession] 5 emptySession.id =
        (emptySession, true, none) :=
  create_fetch_roundtrip_empty_optionals emptySession 5 rfl rfl rfl (by decide)

/-- C2: `Create` returns `DuplicateIDError` exactly when the underlying
database error is a `pq` constraint-violation error whose constraint name
is `{table}_pkey`; every other failure is returned unchanged; a successful
exec returns no error; and an insert that collides with an existing id
fails with `DuplicateIDError` and leaves the table (in particular the
existing row) unchanged. -/
theorem create_duplicate_id_classification (tName : String) (db : List Row)
    (s : Session) (hdup : (db.any fun r0 => r0.id == (encodeRow s).id) = true) :
    (∀ e, createClassify tName (some e) = some .duplicateID ↔
        e = .pqError (tName ++ "_pkey")) ∧
    (∀ e, e ≠ .pqError (tName ++ "_pkey") →
        createClassify tName (some e) = some (.db e)) ∧
    createClassify tName none = none ∧
    createOp tName db s = (some .duplicateID, db) := by
  refine ⟨?_, ?_, rfl, ?_⟩
  · intro e
    cases e with
    | errNoRows => simp [createClassify]
    | pqError c =>
        by_cases hc : c = tName ++ "_pkey" <;> simp [createClassify, hc]
    | generic m => simp [createClassify]
  · intro e he
    cases e with
    | errNoRows => simp [createClassify]
    | pqError c =>
        have hc : c ≠ tName ++ "_pkey" := fun h => he (by simp [h])
        simp [createClassify, hc]
    | generic m => simp [createClassify]
  · simp [createOp, execInsert, hdup, createClassify]

/-- Witness for C2: inserting a session whose id is already present. -/
theorem create_duplicate_id_classification_witness :
    createOp "sessions" [encodeRow fullSession] emptySession =
      (some .duplicateID, [encodeRow fullSession]) :=
  (create_duplicate_id_classification "sessions" [encodeRow fullSession]
    emptySession (by decide)).2.2.2

/-- C10: For every Session whose IP field is nil, `Create` stores the
ip column as SQL NULL: the NULL-encoding function treats `"<nil>"` (the
textual rendering of a nil IP) as absent in addition to the empty string,
and the literal text `"<nil>"` is never persisted in the ip column of any
encoded row. -/
theorem create_nil_ip_stored_null (s : Session) (h : s.ip = none) :
    (encodeRow s).ip = none ∧
    (∀ s' : Session, (encodeRow s').ip ≠ some "<nil>") ∧
    setNullString "<nil>" = none ∧ setNullString "" = none := by
  refine ⟨by simp [encodeRow, h, ipString, setNullString], ?_, by decide, by decide⟩
  intro s'
  simp only [encodeRow, setNullString]
  split
  · next h' => simpa using fun he => h'.2 he
  · simp

/-- Witness for C10 at a concrete nil-IP session. -/
theorem create_nil_ip_stored_null_witness :
    (encodeRow emptySession).ip = none ∧
    (∀ s' : Session, (encodeRow s').ip ≠ some "<nil>") ∧
    setNullString "<nil>" = none ∧ setNullString "" = none :=
  create_nil_ip_stored_null emptySession rfl

/-- The query predicate of `fetchByIDQuery`, propositionally. -/
theorem fetchByID_pred_iff (now : Int) (id : String) (r : Row) :
    (r.id == id && decide (now < r.expiresAt)) = true ↔
      r.id = id ∧ now < r.expiresAt := by
  simp

/-- C3: For every id, `FetchByID` returns `found = true` (with a nil
error) iff a row with that id exists whose `expires_at` is strictly later
than the database's current time; when no such active row exists —
including an existing but expired row — it returns the zero-value Session,
`found = false`, and a nil error; `sql.ErrNoRows` is likewise mapped to
that triple; and any other database failure yields the zero-value Session,
`found = false`, and that error. -/
theorem fetchByID_active_semantics (db : List Row) (now : Int) (id : String) :
    ((fetchByID db now id).2.1 = true ↔
        ∃ r ∈ db, r.id = id ∧ now < r.expiresAt) ∧
    (fetchByID db now id = (Session.zero, false, none) ↔
        ¬ ∃ r ∈ db, r.id = id ∧ now < r.expiresAt) ∧
    ((fetchByID db now id).2.1 = true → (fetchByID db now id).2.2 = none) ∧
    fetchByIDDecode (.error .errNoRows) = (Session.zero, false, none) ∧
    (∀ msg, fetchByIDDecode (.error (.generic msg)) =
        (Session.zero, false, some (.generic msg))) ∧
    (∀ c, fetchByIDDecode (.error (.pqError c)) =
        (Session.zero, false, some (.pqError c))) := by
  have hex : (∃ r ∈ db, r.id = id ∧ now < r.expiresAt) ↔
      (db.find? fun r => r.id == id && decide (now < r.expiresAt)).isSome := by
    rw [List.find?_isSome]
    constructor
    · rintro ⟨r, hr, h1, h2⟩
      exact ⟨r, hr, (fetchByID_pred_iff now id r).mpr ⟨h1, h2⟩⟩
    · rintro ⟨r, hr, hp⟩
      exact ⟨r, hr, (fetchByID_pred_iff now id r).mp hp⟩
  refine ⟨?_, ?_, ?_, rfl, fun _ => rfl, fun _ => rfl⟩ <;>
    · rw [show fetchByID db now id =
          fetchByIDDecode (fetchByIDQuery db now id) from rfl]
      unfold fetchByIDQuery
      rcases h : db.find? fun r => r.id == id && decide (now < r.expiresAt) with
        _ | r <;> simp [fetchByIDDecode, hex, h]

/-- Witness for C3: an expired row is reported as not found with no error,
and an active row is found. -/
theorem fetchByID_active_semantics_witness :
    fetchByID [encodeRow fullSession] 20 "id1" = (Session.zero, false, none) ∧
    (fetchByID [encodeRow fullSession] 5 "id1").2.1 = true :=
  ⟨(fetchByID_active_semantics [encodeRow fullSession] 20 "id1").2.1.mpr
      (by decide),
    (fetchByID_active_semantics [encodeRow fullSession] 5 "id1").1.mpr
      (by decide)⟩

/-- Draining a cursor whose elements all scanned successfully decodes each
row in order. -/
theorem drainRows_map_ok (l : List Row) :
    drainRows (l.map .ok) = .ok (l.map decodeRow) := by
  induction l with
  | nil => rfl
  | cons r rest ih => simp [drainRows, ih]

/-- C4: `FetchByUserKey` returns exactly the decoded rows whose
`user_key` matches, in table order, with no filter on expiration: a row
already expired at any time `now` is included in the result exactly like
an active one. -/
theorem fetchByUserKey_no_expiration_filter :
    (∀ db key, fetchByUserKey db key =
        .ok ((db.filter fun r => r.userKey == key).map decodeRow)) ∧
    (∀ (db : List Row) (key : String) (now : Int) (r : Row),
        r ∈ db → r.userKey = key → r.expiresAt ≤ now →
        ∃ ss, fetchByUserKey db key = .ok ss ∧ decodeRow r ∈ ss) := by
  have hall : ∀ db key, fetchByUserKey db key =
      .ok ((db.filter fun r => r.userKey == key).map decodeRow) := by
    intro db key
    simp [fetchByUserKey, fetchByUserKeyGo, fetchByUserKeyDecode,
      fetchByUserKeyQuery, drainRows_map_ok]
  refine ⟨hall, fun db key now r hmem hkey _ => ?_⟩
  exact ⟨_, hall db key,
    List.mem_map_of_mem decodeRow (List.mem_filter.mpr ⟨hmem, by simp [hkey]⟩)⟩

/-- Witness for C4: a row expired at time 20 is still returned by
`FetchByUserKey`. -/
theorem fetchByUserKey_no_expiration_filter_witness :
    ∃ ss, fetchByUserKey [encodeRow fullSession] "key" = .ok ss ∧
      decodeRow (encodeRow fullSession) ∈ ss :=
  fetchByUserKey_no_expiration_filter.2 [encodeRow fullSession] "key" 20
    (encodeRow fullSession) (by decide) (by decide) (by decide)

/-- C5: `DeleteByUserKey` removes exactly the rows whose `user_key`
matches and whose id is not in the exception set: the survivors are a
sublist of the table (every other row is untouched, in order), a row
survives iff it was present and is not a matching row outside the
exceptions, and with an empty exception list every row for the user key is
removed. -/
theorem deleteByUserKey_semantics (db : List Row) (key : String)
    (expID : List String) (r : Row) :
    (deleteByUserKey db key expID).Sublist db ∧
    (r ∈ deleteByUserKey db key expID ↔
        r ∈ db ∧ ¬(r.userKey = key ∧ r.id ∉ expID)) ∧
    deleteByUserKey db key [] = db.filter (fun r0 => !(r0.userKey == key)) := by
  refine ⟨?_, ?_, by simp [deleteByUserKey]⟩
  · unfold deleteByUserKey
    split <;> exact List.filter_sublist db
  · unfold deleteByUserKey
    rcases expID with _ | ⟨e0, es⟩
    · simp [List.mem_filter, and_comm]
    · simp [List.mem_filter]
      tauto

/-- Witness for C5, matching the spec's concrete scenario: three rows for
one user, exception list `["id2"]`; exactly the excepted row survives. -/
theorem deleteByUserKey_semantics_witness :
    deleteByUserKey
        [ ⟨1, 10, "id1", "key", none, none, none⟩,
          ⟨1, 10, "id2", "key", none, none, none⟩,
          ⟨1, 10, "id3", "key", none, none, none⟩ ] "key" ["id2"]
      = [⟨1, 10, "id2", "key", none, none, none⟩] ∧
    (⟨1, 10, "id2", "key", none, none, none⟩ : Row) ∈
      deleteByUserKey
        [ ⟨1, 10, "id1", "key", none, none, none⟩,
          ⟨1, 10, "id2", "key", none, none, none⟩,
          ⟨1, 10, "id3", "key", none, none, none⟩ ] "key" ["id2"] :=
  ⟨by decide,
    (deleteByUserKey_semantics
        [ ⟨1, 10, "id1", "key", none, none, none⟩,
          ⟨1, 10, "id2", "key", none, none, none⟩,
          ⟨1, 10, "id3", "key", none, none, none⟩ ] "key" ["id2"]
        ⟨1, 10, "id2", "key", none, none, none⟩).2.1.mpr (by decide)⟩

/-- C6 counterexample: The schema DDL that `New` executes (the `table`
constant) contains no `CREATE INDEX` statement at all: no supporting index
on the expiration column is ever created, contrary to the claim. -/
theorem newStoreDDL_has_no_index :
    newStoreDDL.all (fun d => !d.isCreateIndex) = true := by decide

/-- C6 amended: Constructing a Store executes a single idempotent
`CREATE TABLE IF NOT EXISTS` statement with seven columns (creation time,
expiration time, id as the only primary key, user key, ip, agent OS, agent
browser; the timestamps and the user key declared NOT NULL) and no
supporting index; if this schema creation fails,
construction returns the error and no usable Store, and on success it
returns a Store. -/
theorem newStore_schema (tName : String) (d : Int) (e : DBError) :
    newStoreDDL = [.createTableIfNotExists tableColumns] ∧
    tableColumns.length = 7 ∧
    tableColumns.map Column.name =
      ["created_at", "expires_at", "id", "user_key", "ip",
        "agent_os", "agent_browser"] ∧
    (tableColumns.filter fun c => c.primaryKey).map Column.name = ["id"] ∧
    (tableColumns.filter fun c => c.notNull).map Column.name =
      ["created_at", "expires_at", "user_key"] ∧
    NewStore tName d (some e) = .error e ∧
    NewStore tName d none =
      .ok { tName := tName, stopChan := if d > 0 then some () else none } := by
  exact ⟨rfl, rfl, rfl, rfl, rfl, rfl, rfl⟩

/-- C7: Every tick of the sweeper executes a delete of exactly the
rows whose `expires_at` is strictly earlier than the database's current
time — with no id or user filter: survival depends only on `expires_at` —
every error produced by that delete is delivered on the error channel
(and the tick returns nothing to any caller), a failureless tick sends
nothing, and over a whole run the channel receives exactly the errors of
the failing ticks, in order. -/
theorem sweeper_tick_semantics :
    (∀ db now, sweepTick db now none =
        (db.filter fun r => !(decide (r.expiresAt < now)), [])) ∧
    (∀ (db : List Row) (now : Int) (r : Row), r ∈ db →
        (r ∈ (sweepTick db now none).1 ↔ ¬ r.expiresAt < now)) ∧
    (∀ db now e, sweepTick db now (some e) = (db, [e])) ∧
    (∀ db ticks, (sweepRun db ticks).2 = ticks.filterMap Prod.snd) := by
  refine ⟨fun db now => rfl, ?_, fun db now e => rfl, ?_⟩
  · intro db now r hr
    simp [sweepTick, deleteExpired, List.mem_filter, hr]
  · intro db ticks
    induction ticks generalizing db with
    | nil => rfl
    | cons t rest ih =>
        rcases t with ⟨now, e⟩
        rcases e with _ | e <;>
          simp [sweepRun, sweepTick, List.filterMap_cons, ih]

/-- Witness for C7: a tick at time 20 deletes the expired row, and it
survives a tick at time 5. -/
theorem sweeper_tick_semantics_witness :
    (encodeRow fullSession ∉ (sweepTick [encodeRow fullSession] 20 none).1) ∧
    (encodeRow fullSession ∈ (sweepTick [encodeRow fullSession] 5 none).1) :=
  ⟨fun h => by
      have := (sweeper_tick_semantics.2.1 [encodeRow fullSession] 20
        (encodeRow fullSession) (by decide)).mp h
      exact this (by decide),
    (sweeper_tick_semantics.2.1 [encodeRow fullSession] 5
        (encodeRow fullSession) (by decide)).mpr (by decide)⟩

/-- C8: A Store constructed with sweep interval 0 never starts the
cleanup goroutine, so its stop channel is nil; `StopCleanup` on it is a
guarded no-op: it performs no channel send (hence cannot block) and leaves
the state unchanged. -/
theorem stopCleanup_unstarted_noop :
    NewStore "sessions" 0 none = .ok ⟨"sessions", none⟩ ∧
    stopCleanup ⟨"sessions", none⟩ = (⟨"sessions", none⟩, []) :=
  ⟨rfl, rfl⟩

/-- A scan failure anywhere in the cursor aborts the drain with that
error, dropping every row scanned so far. -/
theorem drainRows_append_error (pre : List Row) (e : DBError)
    (rest : List (Except DBError Row)) :
    drainRows (pre.map .ok ++ .error e :: rest) = .error e := by
  induction pre with
  | nil => rfl
  | cons r prest ih => simp [drainRows, ih]

/-- C9: `FetchByUserKey` returns a nil error with an empty sequence
when no rows match (and maps a `sql.ErrNoRows` query result to the same);
any other query error, any per-row scan failure, and any post-iteration
cursor error is returned as a bare error with no partial sequence. -/
theorem fetchByUserKey_error_paths :
    (∀ db key, fetchByUserKeyQuery db key = [] →
        fetchByUserKey db key = .ok []) ∧
    fetchByUserKeyGo (.error .errNoRows) = .ok [] ∧
    (∀ m, fetchByUserKeyGo (.error (.generic m)) = .error (.generic m)) ∧
    (∀ c, fetchByUserKeyGo (.error (.pqError c)) = .error (.pqError c)) ∧
    (∀ (pre : List Row) (e : DBError) (rest : List (Except DBError Row))
        (post : Option DBError),
        fetchByUserKeyDecode ⟨pre.map .ok ++ .error e :: rest, post⟩ =
          .error e) ∧
    (∀ (rows : List Row) (e : DBError),
        fetchByUserKeyDecode ⟨rows.map .ok, some e⟩ = .error e) := by
  refine ⟨?_, rfl, fun _ => rfl, fun _ => rfl, ?_, ?_⟩
  · intro db key h
    simp [fetchByUserKey, fetchByUserKeyGo, fetchByUserKeyDecode, h, drainRows]
  · intro pre e rest post
    simp [fetchByUserKeyDecode, drainRows_append_error]
  · intro rows e
    simp [fetchByUserKeyDecode, drainRows_map_ok]

/-- Witness for C9: an empty query result yields a nil error and an empty
sequence. -/
theorem fetchByUserKey_error_paths_witness :
    fetchByUserKey [encodeRow fullSession] "other" = .ok [] :=
  fetchByUserKey_error_paths.1 [encodeRow fullSession] "other" (by decide)

end PgStore
